import Mathlib

/-!
Verification of `extract_pairs_orthofinder_qfo.py`.

The script reads OrthoFinder orthologue spreadsheets (TSV files found in the
immediate subdirectories of a predictions root), extracts pairs of UniProtKB
accessions, and appends them to an output file.

Strings are Lean `String`s; the Python string primitives used by the script
(`str.split` with a one-character separator, `str.replace(pat, "")` with a
one-character pattern, the substring test `pat in s`, `str.endswith`) are
embedded as executable functions on the underlying character lists, matching
CPython semantics (`"".split(sep) == [""]`, `replace` removes every
occurrence, `in` is a substring test).

File-system effects are made explicit:
* reading a file is a `ReadOutcome`: the open fails (`EnvironmentError` at
  `open`), the file yields a list of lines, or it yields some lines and then
  raises an `EnvironmentError` mid-iteration;
* an uncaught Python exception is an `Except.error` (`Err.indexError` for the
  `IndexError` raised by `token.split("|")[1]` outside the inner `try`,
  `Err.scandirError` for `os.scandir` failing on the root);
* the output file is its content, `Option String` (`none` = file absent);
  opening in append mode starts from the existing content or `""`.
-/

/-- Python `s.split(sep)` for a one-character separator, on character lists:
`"" ↦ [""]`, a trailing separator yields a trailing empty field. -/
def splitOnChar (c : Char) : List Char → List (List Char)
  | [] => [[]]
  | x :: xs =>
    let r := splitOnChar c xs
    if x == c then [] :: r
    else
      match r with
      | [] => [[x]]
      | h :: t => (x :: h) :: t

/-- Python `s.split(sep)` for a one-character separator. -/
def pySplit (sep : Char) (s : String) : List String :=
  (splitOnChar sep s.data).map (fun l => ⟨l⟩)

/-- Python `s.replace(c, "")` for a one-character pattern: removes every
occurrence of `c`. -/
def pyRemove (c : Char) (s : String) : String :=
  ⟨s.data.filter (fun x => x != c)⟩

/-- Does `s` start with `pat`? -/
def startsWithSeq : List Char → List Char → Bool
  | [], _ => true
  | _ :: _, [] => false
  | p :: ps, x :: xs => p == x && startsWithSeq ps xs

/-- Does `s` contain `pat` as a contiguous subsequence? -/
def containsSeq (pat : List Char) : List Char → Bool
  | [] => pat.isEmpty
  | x :: xs => startsWithSeq pat (x :: xs) || containsSeq pat xs

/-- Python `pat in s` (substring test). -/
def pyContains (pat s : String) : Bool :=
  containsSeq pat.data s.data

/-- Python `s.endswith(pat)`. -/
def pyEndsWith (pat s : String) : Bool :=
  startsWithSeq pat.data.reverse s.data.reverse

/-- The header marker token of line 50: `"Orthogroup" in line`. -/
def headerMarker : String := "Orthogroup"

/-- A warning issued via `warnings.warn`, identified by its arguments. -/
inductive Warning where
  /-- Line 58: `f"There is an issue with file '{input_file}' in line '{line}'."` -/
  | lineIssue (input_file line : String)
  /-- Line 67: `f"Could not open file '{input_file}'."` -/
  | couldNotOpen (input_file : String)
deriving DecidableEq, Repr

/-- An uncaught Python exception. -/
inductive Err where
  /-- `IndexError` from `token.split("|")[1]` (lines 62/64), outside both
  `except` clauses. -/
  | indexError
  /-- `os.scandir(predictions)` raising because the root does not exist or is
  not a directory (line 96). -/
  | scandirError
deriving DecidableEq, Repr

/-- What reading an input file yields. -/
inductive ReadOutcome where
  /-- `open(input_file)` raises `EnvironmentError`. -/
  | openFail
  /-- The file yields exactly these lines (each as produced by Python line
  iteration, i.e. possibly ending in a newline). -/
  | ok (lines : List String)
  /-- The file yields these lines and then iteration raises
  `EnvironmentError`. -/
  | failDuring (lines : List String)
deriving DecidableEq, Repr

/-- `reference.split("|")[1]` respectively `target.split("|")[1]`, as a total
function (used only where the index is known to exist). -/
def secondSeg (tok : String) : String :=
  ((pySplit '|' tok)[1]?).getD ""

/-- The inner loop of lines 63-64: for each target token, split on `|` and
take index 1; `IndexError` aborts. -/
def innerPairs (reference_id : String) : List String → Except Err (List (String × String))
  | [] => .ok []
  | t :: ts =>
    match (pySplit '|' t)[1]? with
    | none => .error .indexError
    | some tid => (innerPairs reference_id ts).map (fun l => (reference_id, tid) :: l)

/-- The nested loops of lines 61-64: for each reference token take its second
`|`-segment, then pair it with the second `|`-segment of every target token;
`IndexError` aborts. -/
def crossPairs : List String → List String → Except Err (List (String × String))
  | [], _ => .ok []
  | r :: rs, tgts =>
    match (pySplit '|' r)[1]? with
    | none => .error .indexError
    | some rid =>
      match innerPairs rid tgts with
      | .error e => .error e
      | .ok these =>
        match crossPairs rs tgts with
        | .error e => .error e
        | .ok rest => .ok (these ++ rest)

/-- Lines 50-64, the body of the `for line in file_handler` loop: pairs and
warnings contributed by one line, or an uncaught `IndexError`. -/
def processLine (input_file line : String) : Except Err (List (String × String) × List Warning) :=
  if pyContains headerMarker line then .ok ([], [])
  else
    let temp := pySplit '\t' (pyRemove '\n' line)
    match temp[1]?, temp[2]? with
    | some f1, some f2 =>
      (crossPairs (pySplit ',' (pyRemove ' ' f1)) (pySplit ',' (pyRemove ' ' f2))).map
        (fun ps => (ps, []))
    | _, _ => .ok ([], [.lineIssue input_file line])

/-- The whole `for line in file_handler` loop: pairs and warnings accumulated
over the lines, an uncaught `IndexError` discarding everything. -/
def extractLines (input_file : String) : List String → Except Err (List (String × String) × List Warning)
  | [] => .ok ([], [])
  | line :: rest =>
    match processLine input_file line with
    | .error e => .error e
    | .ok (ps, ws) =>
      match extractLines input_file rest with
      | .error e => .error e
      | .ok (ps2, ws2) => .ok (ps ++ ps2, ws ++ ws2)

/-- `extract_orthologous_pairs` (lines 32-69). The outer
`except EnvironmentError` catches only open/read failures: an open failure
returns `[]` with a warning, a read failure mid-iteration returns the pairs
accumulated so far with a warning, and an `IndexError` propagates. -/
def extract_orthologous_pairs (input_file : String) (content : ReadOutcome) :
    Except Err (List (String × String) × List Warning) :=
  match content with
  | .openFail => .ok ([], [.couldNotOpen input_file])
  | .ok lines => extractLines input_file lines
  | .failDuring lines =>
    match extractLines input_file lines with
    | .error e => .error e
    | .ok (ps, ws) => .ok (ps, ws ++ [.couldNotOpen input_file])

/-- `write_orthologous_pairs` (lines 72-82): open the output file in append
mode (its content, or `""` if absent) and write `pair[0] + "\t" + pair[1] +
"\n"` for each pair in order; returns the new content. -/
def write_orthologous_pairs (orthologous_pairs : List (String × String))
    (existing : Option String) : String :=
  orthologous_pairs.foldl (fun acc p => acc ++ p.1 ++ "\t" ++ p.2 ++ "\n") (existing.getD "")

/-- A directory entry as seen by `os.scandir`: a subdirectory with its own
entries, or a regular file with its read outcome. -/
inductive Entry where
  | dir (name : String) (entries : List Entry)
  | file (name : String) (content : ReadOutcome)
deriving Repr

/-- Line 99: `[f.path for f in os.scandir(dir) if f.is_file() and f.path.endswith(".tsv")]`. -/
def tsvFiles (entries : List Entry) : List (String × ReadOutcome) :=
  entries.filterMap (fun e =>
    match e with
    | .file n c => if pyEndsWith ".tsv" n then some (n, c) else none
    | .dir _ _ => none)

/-- Line 96: `[f.path for f in os.scandir(predictions) if f.is_dir()]`,
keeping each subdirectory's entries. -/
def subdirEntries (entries : List Entry) : List (List Entry) :=
  entries.filterMap (fun e =>
    match e with
    | .dir _ sub => some sub
    | .file _ _ => none)

/-- The files the script processes: the `.tsv` regular files of the immediate
subdirectories of the root, in traversal order. -/
def processedFiles (entries : List Entry) : List (String × ReadOutcome) :=
  (subdirEntries entries).flatMap tsvFiles

/-- The inner `for file in files` loop (lines 100-102): extract each file's
pairs and append them to the output file; an uncaught exception carries the
output content at the moment it is raised. -/
def processFiles : List (String × ReadOutcome) → Option String → List Warning →
    Except (Err × Option String) (Option String × List Warning)
  | [], out, ws => .ok (out, ws)
  | (n, c) :: rest, out, ws =>
    match extract_orthologous_pairs n c with
    | .error e => .error (e, out)
    | .ok (ps, ws2) => processFiles rest (some (write_orthologous_pairs ps out)) (ws ++ ws2)

/-- The outer `for dir in predictions_subdirs` loop (lines 98-102). -/
def processDirs : List (List Entry) → Option String → List Warning →
    Except (Err × Option String) (Option String × List Warning)
  | [], out, ws => .ok (out, ws)
  | d :: ds, out, ws =>
    match processFiles (tsvFiles d) out ws with
    | .error e => .error e
    | .ok (out2, ws2) => processDirs ds out2 ws2

/-- `process_orthofinder_predictions` (lines 85-102). `predictions = none`
models a root that does not exist or is not a directory, on which
`os.scandir` raises. -/
def process_orthofinder_predictions (predictions : Option (List Entry))
    (out0 : Option String) :
    Except (Err × Option String) (Option String × List Warning) :=
  match predictions with
  | none => .error (.scandirError, out0)
  | some entries => processDirs (subdirEntries entries) out0 []

/-- Exit status of the Python process: 0 on normal return, nonzero on an
uncaught exception. -/
def exitCode (r : Except (Err × Option String) (Option String × List Warning)) : Nat :=
  match r with
  | .ok _ => 0
  | .error _ => 1

/-- The text appended for a list of pairs: one line
`reference<TAB>target<NEWLINE>` per pair, in order. -/
def renderPairs : List (String × String) → String
  | [] => ""
  | p :: ps => p.1 ++ "\t" ++ p.2 ++ "\n" ++ renderPairs ps

/-- Number of lines of a file content (each written line is
newline-terminated). -/
def newlineCount (s : String) : Nat :=
  s.data.count '\n'

example : pySplit '\t' "OG1\ta|A\tb|B" = ["OG1", "a|A", "b|B"] := by decide
example : pySplit '\t' "" = [""] := by decide
example : pyContains headerMarker "Orthogroup\tSpecies1\tSpecies2" = true := by decide
example : pyContains headerMarker "OG1\ta|A\tb|B" = false := by decide
example : pyEndsWith ".tsv" "f.tsv" = true := by decide
example : pyEndsWith ".tsv" "f.txt" = false := by decide
example :
    extractLines "f" ["OG1\ta|A\tb|B"] = .ok ([("A", "B")], []) := rfl
example :
    extract_orthologous_pairs "f" (.ok ["OG2\tnopipe\tb|B"]) = .error .indexError := rfl

theorem innerPairs_ok (rid : String) (tgts : List String)
    (h : ∀ t ∈ tgts, 2 ≤ (pySplit '|' t).length) :
    innerPairs rid tgts = .ok (tgts.map (fun t => (rid, secondSeg t))) := by
  induction tgts with
  | nil => rfl
  | cons t ts ih =>
    have h2 : 1 < (pySplit '|' t).length := h t (List.mem_cons_self t ts)
    have hg : (pySplit '|' t)[1]? = some ((pySplit '|' t)[1]) :=
      List.getElem?_eq_getElem h2
    simp only [innerPairs, hg, ih (fun u hu => h u (List.mem_cons_of_mem t hu)),
      Except.map, List.map_cons]
    simp [secondSeg, hg]

theorem crossPairs_ok (refs tgts : List String)
    (hr : ∀ t ∈ refs, 2 ≤ (pySplit '|' t).length)
    (ht : ∀ t ∈ tgts, 2 ≤ (pySplit '|' t).length) :
    crossPairs refs tgts =
      .ok (refs.flatMap (fun r => tgts.map (fun t => (secondSeg r, secondSeg t)))) := by
  induction refs with
  | nil => rfl
  | cons r rs ih =>
    have h2 : 1 < (pySplit '|' r).length := hr r (List.mem_cons_self r rs)
    have hg : (pySplit '|' r)[1]? = some ((pySplit '|' r)[1]) :=
      List.getElem?_eq_getElem h2
    simp only [crossPairs, hg, innerPairs_ok _ _ ht,
      ih (fun u hu => hr u (List.mem_cons_of_mem r hu)), List.flatMap_cons]
    simp [secondSeg, hg]

theorem flatMapCrossLength (refs tgts : List String) (f g : String → String) :
    (refs.flatMap (fun r => tgts.map (fun t => (f r, g t)))).length
      = refs.length * tgts.length := by
  induction refs with
  | nil => simp
  | cons r rs ih =>
    simp only [List.flatMap_cons, List.length_append, List.length_map, ih, List.length_cons]
    rw [Nat.succ_mul]
    omega

/-- Claim C1: for every line that does not contain the header marker, has at
least 3 tab-separated fields, and whose reference field (index 1) and target
field (index 2), after removing spaces and splitting on commas, yield `refs`
reference tokens and `tgts` target tokens each with at least two
`|`-separated segments, `processLine` emits exactly `refs.length *
tgts.length` pairs, in reference-major/target-minor order, each pair being
the second `|`-segment of the reference token paired with the second
`|`-segment of the target token. -/
theorem c1_cross_product (file line rf tf : String) (refs tgts : List String)
    (hh : pyContains headerMarker line = false)
    (hrf : (pySplit '\t' (pyRemove '\n' line))[1]? = some rf)
    (htf : (pySplit '\t' (pyRemove '\n' line))[2]? = some tf)
    (hrefs : pySplit ',' (pyRemove ' ' rf) = refs)
    (htgts : pySplit ',' (pyRemove ' ' tf) = tgts)
    (hre : ∀ t ∈ refs, 2 ≤ (pySplit '|' t).length)
    (hte : ∀ t ∈ tgts, 2 ≤ (pySplit '|' t).length) :
    processLine file line =
      .ok (refs.flatMap (fun r => tgts.map (fun t => (secondSeg r, secondSeg t))), [])
    ∧ (refs.flatMap (fun r => tgts.map (fun t => (secondSeg r, secondSeg t)))).length
      = refs.length * tgts.length := by
  constructor
  · simp only [processLine, hh, Bool.false_eq_true, if_false, hrf, htf]
    rw [hrefs, htgts, crossPairs_ok refs tgts hre hte]
    rfl
  · exact flatMapCrossLength refs tgts _ _

theorem c1_cross_product_witness :
    extract_orthologous_pairs "f.tsv"
        (.ok ["Orthogroup\tSpecies1\tSpecies2",
              "OG1\tsp|P12345|GENE1, sp|P67890|GENE2\tsp|Q11111|GENE3"])
      = .ok ([("P12345", "Q11111"), ("P67890", "Q11111")], [])
    ∧ (processLine "f.tsv" "OG1\tsp|P12345|GENE1, sp|P67890|GENE2\tsp|Q11111|GENE3"
        = .ok ((["sp|P12345|GENE1", "sp|P67890|GENE2"].flatMap
            (fun r => ["sp|Q11111|GENE3"].map (fun t => (secondSeg r, secondSeg t)))), [])
      ∧ (["sp|P12345|GENE1", "sp|P67890|GENE2"].flatMap
            (fun r => ["sp|Q11111|GENE3"].map (fun t => (secondSeg r, secondSeg t)))).length
          = (["sp|P12345|GENE1", "sp|P67890|GENE2"] : List String).length
            * (["sp|Q11111|GENE3"] : List String).length) :=
  ⟨rfl,
   c1_cross_product "f.tsv" "OG1\tsp|P12345|GENE1, sp|P67890|GENE2\tsp|Q11111|GENE3"
     "sp|P12345|GENE1, sp|P67890|GENE2" "sp|Q11111|GENE3"
     ["sp|P12345|GENE1", "sp|P67890|GENE2"] ["sp|Q11111|GENE3"]
     rfl rfl rfl rfl rfl (by decide) (by decide)⟩

/-- Claim C2: every line containing the header marker token anywhere
(substring match) contributes zero pairs and zero warnings, and processing
continues with the remaining lines unchanged — including data lines that
merely contain the token as ordinary text. -/
theorem c2_header_skip (file line : String) (rest : List String)
    (hh : pyContains headerMarker line = true) :
    processLine file line = .ok ([], []) ∧
    extractLines file (line :: rest) = extractLines file rest := by
  have h1 : processLine file line = .ok ([], []) := by simp [processLine, hh]
  refine ⟨h1, ?_⟩
  simp only [extractLines, h1]
  cases hr : extractLines file rest with
  | error e => rfl
  | ok p => cases p with | mk ps ws => rfl

theorem c2_header_skip_witness :
    pyContains headerMarker "OG7 has Orthogroup inside\ta|A\tb|B" = true
    ∧ (processLine "f" "OG7 has Orthogroup inside\ta|A\tb|B" = .ok ([], [])
      ∧ extractLines "f" ["OG7 has Orthogroup inside\ta|A\tb|B", "OG1\ta|A\tb|B"]
          = extractLines "f" ["OG1\ta|A\tb|B"]) :=
  ⟨by decide, c2_header_skip "f" "OG7 has Orthogroup inside\ta|A\tb|B" ["OG1\ta|A\tb|B"] (by decide)⟩

/-- Claim C3: a non-header line with fewer than 3 tab-separated fields
contributes zero pairs and exactly one warning identifying the file and the
line, and the remaining lines are still processed (their pairs and warnings
are unchanged). -/
theorem c3_malformed_row (file line : String) (rest : List String)
    (hh : pyContains headerMarker line = false)
    (hlen : (pySplit '\t' (pyRemove '\n' line)).length < 3) :
    processLine file line = .ok ([], [.lineIssue file line]) ∧
    extractLines file (line :: rest)
      = (extractLines file rest).map
          (fun r => (r.1, Warning.lineIssue file line :: r.2)) := by
  have h2 : (pySplit '\t' (pyRemove '\n' line))[2]? = none :=
    List.getElem?_eq_none (by omega)
  have h1 : processLine file line = .ok ([], [.lineIssue file line]) := by
    cases hg : (pySplit '\t' (pyRemove '\n' line))[1]? with
    | none => simp [processLine, hh, hg, h2]
    | some a => simp [processLine, hh, hg, h2]
  refine ⟨h1, ?_⟩
  simp only [extractLines, h1]
  cases hr : extractLines file rest with
  | error e => rfl
  | ok p => cases p with | mk ps ws => rfl

theorem c3_malformed_row_witness :
    pyContains headerMarker "OG2\tonlyonefield" = false
    ∧ (pySplit '\t' (pyRemove '\n' "OG2\tonlyonefield")).length < 3
    ∧ (processLine "f" "OG2\tonlyonefield" = .ok ([], [.lineIssue "f" "OG2\tonlyonefield"])
      ∧ extractLines "f" ["OG2\tonlyonefield", "OG1\ta|A\tb|B"]
          = (extractLines "f" ["OG1\ta|A\tb|B"]).map
              (fun r => (r.1, Warning.lineIssue "f" "OG2\tonlyonefield" :: r.2)))
    ∧ extractLines "f" ["OG2\tonlyonefield", "OG1\ta|A\tb|B"]
        = .ok ([("A", "B")], [.lineIssue "f" "OG2\tonlyonefield"]) :=
  ⟨by decide, by decide,
   c3_malformed_row "f" "OG2\tonlyonefield" ["OG1\ta|A\tb|B"] (by decide) (by decide), rfl⟩

theorem writeFoldl (ps : List (String × String)) (acc : String) :
    ps.foldl (fun a p => a ++ p.1 ++ "\t" ++ p.2 ++ "\n") acc = acc ++ renderPairs ps := by
  induction ps generalizing acc with
  | nil => simp [renderPairs, String.append_empty]
  | cons p ps ih =>
    simp only [List.foldl_cons, renderPairs, ih]
    simp [String.append_assoc]

theorem write_eq (ps : List (String × String)) (ex : Option String) :
    write_orthologous_pairs ps ex = ex.getD "" ++ renderPairs ps :=
  writeFoldl ps _

/-- The text the run appends to the output file for a list of files, when no
uncaught exception occurs. -/
def appendedFiles : List (String × ReadOutcome) → Except Err String
  | [] => .ok ""
  | (n, c) :: rest =>
    match extract_orthologous_pairs n c with
    | .error e => .error e
    | .ok (ps, _) =>
      match appendedFiles rest with
      | .error e => .error e
      | .ok s => .ok (renderPairs ps ++ s)

/-- The output-file content after processing `fs` starting from content
`out`, given that the run appends `s`: unchanged if there is no file (the
output is never opened), otherwise the prior content followed by `s`. -/
def nextOut (fs : List (String × ReadOutcome)) (out : Option String) (s : String) :
    Option String :=
  match fs with
  | [] => out
  | _ :: _ => some (out.getD "" ++ s)

theorem processFiles_ok_char (fs : List (String × ReadOutcome)) (s : String)
    (h : appendedFiles fs = .ok s) (out : Option String) (ws : List Warning) :
    ∃ ws2, processFiles fs out ws = .ok (nextOut fs out s, ws ++ ws2) := by
  induction fs generalizing s out ws with
  | nil =>
    refine ⟨[], ?_⟩
    have hs : s = "" := by
      simp only [appendedFiles] at h
      exact (Except.ok.inj h).symm
    subst hs
    simp [processFiles, nextOut]
  | cons f rest ih =>
    obtain ⟨n, c⟩ := f
    cases hx : extract_orthologous_pairs n c with
    | error e =>
      simp only [appendedFiles, hx] at h
      exact Except.noConfusion h
    | ok pw =>
      obtain ⟨ps, w⟩ := pw
      cases ha : appendedFiles rest with
      | error e =>
        simp only [appendedFiles, hx, ha] at h
        exact Except.noConfusion h
      | ok s2 =>
        simp only [appendedFiles, hx, ha] at h
        have hs : s = renderPairs ps ++ s2 := (Except.ok.inj h).symm
        subst hs
        obtain ⟨ws2, hrec⟩ := ih s2 ha (some (write_orthologous_pairs ps out)) (ws ++ w)
        refine ⟨w ++ ws2, ?_⟩
        simp only [processFiles, hx, hrec, ← List.append_assoc]
        cases rest with
        | nil =>
          have hs2 : s2 = "" := by
            simp only [appendedFiles] at ha
            exact (Except.ok.inj ha).symm
          subst hs2
          simp [nextOut, write_eq, String.append_empty]
        | cons g gs =>
          simp [nextOut, write_eq, String.append_assoc]

theorem processFiles_err_char (fs : List (String × ReadOutcome)) (e : Err)
    (h : appendedFiles fs = .error e) (out : Option String) (ws : List Warning) :
    ∃ o, processFiles fs out ws = .error (e, o) := by
  induction fs generalizing out ws with
  | nil =>
    simp only [appendedFiles] at h
    exact Except.noConfusion h
  | cons f rest ih =>
    obtain ⟨n, c⟩ := f
    cases hx : extract_orthologous_pairs n c with
    | error e2 =>
      simp only [appendedFiles, hx] at h
      have he : e2 = e := Except.error.inj h
      subst he
      exact ⟨out, by simp [processFiles, hx]⟩
    | ok pw =>
      obtain ⟨ps, w⟩ := pw
      cases ha : appendedFiles rest with
      | error e2 =>
        simp only [appendedFiles, hx, ha] at h
        have he : e2 = e := Except.error.inj h
        subst he
        obtain ⟨o, ho⟩ := ih ha (some (write_orthologous_pairs ps out)) (ws ++ w)
        exact ⟨o, by simp [processFiles, hx, ho]⟩
      | ok s2 =>
        simp only [appendedFiles, hx, ha] at h
        exact Except.noConfusion h

theorem processFiles_append (a b : List (String × ReadOutcome)) (out : Option String)
    (ws : List Warning) :
    processFiles (a ++ b) out ws =
      match processFiles a out ws with
      | .error e => .error e
      | .ok (out2, ws2) => processFiles b out2 ws2 := by
  induction a generalizing out ws with
  | nil => simp [processFiles]
  | cons f rest ih =>
    obtain ⟨n, c⟩ := f
    cases hx : extract_orthologous_pairs n c with
    | error e => simp [processFiles, hx]
    | ok pw =>
      obtain ⟨ps, w⟩ := pw
      simp [processFiles, hx, ih]

theorem processDirs_eq (ds : List (List Entry)) (out : Option String) (ws : List Warning) :
    processDirs ds out ws = processFiles (ds.flatMap tsvFiles) out ws := by
  induction ds generalizing out ws with
  | nil => rfl
  | cons d ds ih =>
    simp only [processDirs, List.flatMap_cons, processFiles_append]
    cases h : processFiles (tsvFiles d) out ws with
    | error e => rfl
    | ok p =>
      obtain ⟨o, w⟩ := p
      simp [ih]

theorem process_eq_processFiles (entries : List Entry) (out0 : Option String) :
    process_orthofinder_predictions (some entries) out0
      = processFiles (processedFiles entries) out0 [] := by
  simp [process_orthofinder_predictions, processedFiles, processDirs_eq]

theorem processFiles_keeps_some (fs : List (String × ReadOutcome)) (s : String)
    (ws : List Warning) (out2 : Option String) (ws2 : List Warning)
    (h : processFiles fs (some s) ws = .ok (out2, ws2)) : ∃ t, out2 = some t := by
  induction fs generalizing s ws with
  | nil =>
    simp only [processFiles] at h
    exact ⟨s, ((Prod.mk.inj (Except.ok.inj h)).1).symm⟩
  | cons f rest ih =>
    obtain ⟨n, c⟩ := f
    cases hx : extract_orthologous_pairs n c with
    | error e =>
      simp only [processFiles, hx] at h
      exact Except.noConfusion h
    | ok pw =>
      obtain ⟨ps, w⟩ := pw
      simp only [processFiles, hx] at h
      exact ih _ _ h

theorem processLine_header_eq (file line : String)
    (hh : pyContains headerMarker line = true) :
    processLine file line = .ok ([], []) := by
  simp [processLine, hh]

theorem processLine_malformed_eq (file line : String)
    (hh : pyContains headerMarker line = false)
    (hlen : (pySplit '\t' (pyRemove '\n' line)).length < 3) :
    processLine file line = .ok ([], [.lineIssue file line]) := by
  have h2 : (pySplit '\t' (pyRemove '\n' line))[2]? = none :=
    List.getElem?_eq_none (by omega)
  cases hg : (pySplit '\t' (pyRemove '\n' line))[1]? with
  | none => simp [processLine, hh, hg, h2]
  | some a => simp [processLine, hh, hg, h2]

/-- Claim C4: an unopenable input file yields the empty pair list together
with a warning naming the file, without raising, and the run continues with
the remaining files. -/
theorem c4_unopenable_file (file n : String) (rest : List (String × ReadOutcome))
    (out : Option String) (ws : List Warning) :
    extract_orthologous_pairs file .openFail = .ok ([], [.couldNotOpen file])
    ∧ processFiles ((n, .openFail) :: rest) out ws
        = processFiles rest (some (write_orthologous_pairs [] out))
            (ws ++ [.couldNotOpen n]) :=
  ⟨rfl, rfl⟩

/-- Claim C5: `write_orthologous_pairs` appends, never truncates: the new
content is the prior content (empty if the file was absent) followed by one
`reference<TAB>target<NEWLINE>` line per pair in order; and running the whole
program a second time with the output of the first run doubles the output
file's newline-terminated line count. -/
theorem c5_append_semantics (pairs : List (String × String)) (ex : Option String)
    (entries : List Entry) (out1 : Option String) (ws1 : List Warning)
    (h : process_orthofinder_predictions (some entries) none = .ok (out1, ws1)) :
    write_orthologous_pairs pairs ex = ex.getD "" ++ renderPairs pairs
    ∧ ∃ out2 ws2,
        process_orthofinder_predictions (some entries) (some (out1.getD ""))
          = .ok (out2, ws2)
        ∧ newlineCount (out2.getD "") = 2 * newlineCount (out1.getD "") := by
  refine ⟨write_eq pairs ex, ?_⟩
  rw [process_eq_processFiles] at h ⊢
  generalize hg : processedFiles entries = fs at h ⊢
  cases ha : appendedFiles fs with
  | error e =>
    obtain ⟨o, ho⟩ := processFiles_err_char fs e ha none []
    rw [ho] at h
    exact Except.noConfusion h
  | ok s =>
    obtain ⟨ws2, h2⟩ := processFiles_ok_char fs s ha none []
    rw [h2] at h
    have hout : out1 = nextOut fs none s := ((Prod.mk.inj (Except.ok.inj h)).1).symm
    obtain ⟨ws3, h3⟩ := processFiles_ok_char fs s ha (some (out1.getD "")) []
    refine ⟨nextOut fs (some (out1.getD "")) s, ws3, by simpa using h3, ?_⟩
    subst hout
    cases fs with
    | nil => simp [nextOut, newlineCount]
    | cons f fsr =>
      simp only [nextOut, Option.getD_some, Option.getD_none]
      simp only [newlineCount, String.data_append, List.count_append, String.data,
        List.count_nil, List.nil_append]
      omega

theorem c5_append_semantics_witness :
    process_orthofinder_predictions
        (some [Entry.dir "d" [Entry.file "a.tsv" (.ok ["OG1\ta|A\tb|B"])]]) none
      = .ok (some "A\tB\n", [])
    ∧ (write_orthologous_pairs [("X", "Y")] (some "A\tB\n")
          = (some "A\tB\n" : Option String).getD "" ++ renderPairs [("X", "Y")]
      ∧ ∃ out2 ws2,
          process_orthofinder_predictions
              (some [Entry.dir "d" [Entry.file "a.tsv" (.ok ["OG1\ta|A\tb|B"])]])
              (some ((some "A\tB\n" : Option String).getD ""))
            = .ok (out2, ws2)
          ∧ newlineCount (out2.getD "")
              = 2 * newlineCount ((some "A\tB\n" : Option String).getD "")) :=
  ⟨rfl,
   c5_append_semantics [("X", "Y")] (some "A\tB\n")
     [Entry.dir "d" [Entry.file "a.tsv" (.ok ["OG1\ta|A\tb|B"])]]
     (some "A\tB\n") [] rfl⟩

/-- Claim C6: a missing or non-directory predictions root is fatal — the
error propagates and the exit status is nonzero — while malformed rows and
unreadable files only record warnings: a normally returning run exits 0, an
unopenable file lets processing continue, and a file whose lines are all
header or malformed lines extracts to zero pairs with warnings, raising
nothing. -/
theorem c6_fatal_root (out0 : Option String) :
    process_orthofinder_predictions none out0 = .error (.scandirError, out0)
    ∧ exitCode (process_orthofinder_predictions none out0) = 1
    ∧ (∀ entries o ws, process_orthofinder_predictions (some entries) out0 = .ok (o, ws) →
        exitCode (process_orthofinder_predictions (some entries) out0) = 0)
    ∧ (∀ n rest out ws1, processFiles ((n, ReadOutcome.openFail) :: rest) out ws1
        = processFiles rest (some (write_orthologous_pairs [] out))
            (ws1 ++ [Warning.couldNotOpen n]))
    ∧ (∀ file ls, (∀ l ∈ ls, pyContains headerMarker l = true
          ∨ (pySplit '\t' (pyRemove '\n' l)).length < 3) →
        ∃ ws2, extract_orthologous_pairs file (.ok ls) = .ok ([], ws2)) := by
  refine ⟨rfl, rfl, ?_, ?_, ?_⟩
  · intro entries o ws h
    simp [exitCode, h]
  · intro n rest out ws1
    rfl
  · intro file ls h
    induction ls with
    | nil => exact ⟨[], rfl⟩
    | cons l rest ih =>
      obtain ⟨ws2, hw⟩ := ih (fun u hu => h u (List.mem_cons_of_mem l hu))
      simp only [extract_orthologous_pairs] at hw ⊢
      cases hx : pyContains headerMarker l with
      | true =>
        refine ⟨[] ++ ws2, ?_⟩
        simp only [extractLines, processLine_header_eq file l hx, hw]
        rfl
      | false =>
        have hl : (pySplit '\t' (pyRemove '\n' l)).length < 3 := by
          rcases h l (List.mem_cons_self l rest) with hh | hl
          · rw [hx] at hh
            exact absurd hh (by simp)
          · exact hl
        refine ⟨[Warning.lineIssue file l] ++ ws2, ?_⟩
        simp only [extractLines, processLine_malformed_eq file l hx hl, hw]
        rfl

theorem c6_fatal_root_witness :
    process_orthofinder_predictions none (some "x") = .error (.scandirError, some "x")
    ∧ exitCode (process_orthofinder_predictions (some [Entry.dir "d" []]) none) = 0 :=
  ⟨(c6_fatal_root (some "x")).1,
   (c6_fatal_root none).2.2.1 [Entry.dir "d" []] none [] rfl⟩

/-- Claim C7: the run is equivalent to processing exactly the files listed by
`processedFiles`, and a file is in that list precisely when it is a regular
file whose name ends in `.tsv` lying in an immediate subdirectory of the
root: files directly in the root, files nested deeper than one level, and
non-`.tsv` files are never processed. -/
theorem c7_file_discovery (entries : List Entry) (out0 : Option String)
    (n : String) (c : ReadOutcome) :
    process_orthofinder_predictions (some entries) out0
      = processFiles (processedFiles entries) out0 []
    ∧ ((n, c) ∈ processedFiles entries ↔
        ∃ d sub, Entry.dir d sub ∈ entries ∧ Entry.file n c ∈ sub
          ∧ pyEndsWith ".tsv" n = true) := by
  refine ⟨process_eq_processFiles entries out0, ?_⟩
  constructor
  · intro h
    rw [processedFiles, List.mem_flatMap] at h
    obtain ⟨fl, hfl, hmem⟩ := h
    rw [subdirEntries, List.mem_filterMap] at hfl
    obtain ⟨e, he, hsome⟩ := hfl
    cases e with
    | file _ _ => simp at hsome
    | dir d sub =>
      have hs : sub = fl := by simpa using hsome
      subst hs
      rw [tsvFiles, List.mem_filterMap] at hmem
      obtain ⟨e2, he2, hsome2⟩ := hmem
      cases e2 with
      | dir _ _ => simp at hsome2
      | file n2 c2 =>
        by_cases ht : pyEndsWith ".tsv" n2 = true
        · simp only [ht, if_true, Option.some.injEq, Prod.mk.injEq] at hsome2
          obtain ⟨hn, hc⟩ := hsome2
          subst hn
          subst hc
          exact ⟨d, sub, he, he2, ht⟩
        · simp [ht] at hsome2
  · rintro ⟨d, sub, hd, hf, ht⟩
    rw [processedFiles, List.mem_flatMap]
    refine ⟨sub, ?_, ?_⟩
    · rw [subdirEntries, List.mem_filterMap]
      exact ⟨Entry.dir d sub, hd, rfl⟩
    · rw [tsvFiles, List.mem_filterMap]
      exact ⟨Entry.file n c, hf, by simp [ht]⟩

/-- Claim C8: a file whose first line is well formed but whose second line
holds a gene token without a second `|`-segment makes
`extract_orthologous_pairs` raise an uncaught `IndexError`, aborting the
whole run with the output file untouched — the valid pair of the first line
included is never written (processing the first line alone would have
produced it). -/
theorem c8_index_error_aborts :
    extract_orthologous_pairs "f.tsv"
        (.ok ["OG1\tsp|A|G1\tsp|B|G2", "OG2\tnopipe\tsp|B|G2"]) = .error .indexError
    ∧ extractLines "f.tsv" ["OG1\tsp|A|G1\tsp|B|G2"] = .ok ([("A", "B")], [])
    ∧ process_orthofinder_predictions
        (some [Entry.dir "d" [Entry.file "f.tsv"
          (.ok ["OG1\tsp|A|G1\tsp|B|G2", "OG2\tnopipe\tsp|B|G2"])]])
        (some "prior\n")
      = .error (.indexError, some "prior\n") :=
  ⟨rfl, rfl, rfl⟩

/-- Claim C9: an `EnvironmentError` raised while reading a file after a
successful open makes `extract_orthologous_pairs` return the pairs
accumulated from the lines read so far — not the empty list — together with
the `Could not open file` warning, and those partial pairs are then written
to the output. -/
theorem c9_partial_read (file : String) (ls : List String)
    (ps : List (String × String)) (ws : List Warning)
    (h : extractLines file ls = .ok (ps, ws)) :
    extract_orthologous_pairs file (.failDuring ls)
      = .ok (ps, ws ++ [Warning.couldNotOpen file])
    ∧ (∀ rest out ws0, processFiles ((file, ReadOutcome.failDuring ls) :: rest) out ws0
        = processFiles rest (some (write_orthologous_pairs ps out))
            (ws0 ++ (ws ++ [Warning.couldNotOpen file]))) := by
  have h1 : extract_orthologous_pairs file (.failDuring ls)
      = .ok (ps, ws ++ [Warning.couldNotOpen file]) := by
    simp [extract_orthologous_pairs, h]
  exact ⟨h1, fun rest out ws0 => by simp [processFiles, h1]⟩

theorem c9_partial_read_witness :
    extractLines "f" ["OG1\ta|A\tb|B"] = .ok ([("A", "B")], [])
    ∧ (extract_orthologous_pairs "f" (.failDuring ["OG1\ta|A\tb|B"])
        = .ok ([("A", "B")], [] ++ [Warning.couldNotOpen "f"])
      ∧ ∀ rest out ws0,
          processFiles (("f", ReadOutcome.failDuring ["OG1\ta|A\tb|B"]) :: rest) out ws0
            = processFiles rest (some (write_orthologous_pairs [("A", "B")] out))
                (ws0 ++ ([] ++ [Warning.couldNotOpen "f"]))) :=
  ⟨rfl, c9_partial_read "f" ["OG1\ta|A\tb|B"] [("A", "B")] [] rfl⟩

/-- Claim C10: writing an empty pair list still opens the output path in
append mode, so the file is created empty if absent and an existing file is
left unchanged; consequently any run that processes at least one file — even
one yielding zero pairs — ends with the output file existing. -/
theorem c10_empty_write (ex : Option String) (n : String) (c : ReadOutcome)
    (fs : List (String × ReadOutcome)) (out2 : Option String) (ws2 : List Warning)
    (h : processFiles ((n, c) :: fs) none [] = .ok (out2, ws2)) :
    write_orthologous_pairs [] ex = ex.getD ""
    ∧ write_orthologous_pairs [] none = ""
    ∧ ∃ t, out2 = some t := by
  refine ⟨rfl, rfl, ?_⟩
  cases hx : extract_orthologous_pairs n c with
  | error e =>
    simp only [processFiles, hx] at h
    exact Except.noConfusion h
  | ok pw =>
    obtain ⟨ps, w⟩ := pw
    simp only [processFiles, hx] at h
    exact processFiles_keeps_some fs _ _ _ _ h

theorem c10_empty_write_witness :
    processFiles [("a.tsv", ReadOutcome.openFail)] none []
      = .ok (some "", [Warning.couldNotOpen "a.tsv"])
    ∧ (write_orthologous_pairs [] (some "x") = (some "x" : Option String).getD ""
      ∧ write_orthologous_pairs [] none = ""
      ∧ ∃ t, (some "" : Option String) = some t) :=
  ⟨rfl,
   c10_empty_write (some "x") "a.tsv" .openFail [] (some "")
     [Warning.couldNotOpen "a.tsv"] rfl⟩
